import Mathlib

/-!
Verification development for the PBS batch-scheduler backend
(`deepks/task/job/pbs.py`): a shallow embedding of the status poller,
the submitter, resource-specification defaulting and the submission-script
generator, together with theorems about the behaviour of each operation.

Python strings are embedded as `String`; Python string operations that the
code uses (`split`, `strip`, `in`, `readlines`, negative indexing, decimal
formatting of `int`) are embedded as structurally recursive Lean functions
so that all definitions evaluate by kernel reduction.
-/

set_option maxHeartbeats 1000000

/-- Python `s.split(c)` for a one-character separator `c`, on character
lists: every occurrence of the separator produces a cut, empty pieces are
kept, and the empty string yields `[[]]`. -/
def splitPred (p : Char → Bool) : List Char → List (List Char)
  | [] => [[]]
  | x :: xs =>
    let r := splitPred p xs
    if p x then [] :: r
    else
      match r with
      | [] => [[x]]
      | y :: ys => (x :: y) :: ys

/-- Python `stdout.split('\n')`, as a list of `String`s. -/
def pyLines (s : String) : List String :=
  (splitPred (fun c => c = '\n') s.data).map String.mk

/-- Python `s.split()` (no argument): split on whitespace runs and drop the
empty pieces, so only the non-empty tokens remain. -/
def pySplitWs (s : String) : List String :=
  ((splitPred Char.isWhitespace s.data).filter (fun p => p ≠ [])).map String.mk

/-- Python `l[-2]`: the second-to-last element when the list has at least
two elements, otherwise an `IndexError` (modelled as `none`). -/
def secondLast {α : Type} (l : List α) : Option α :=
  match l.reverse with
  | _ :: x :: _ => some x
  | _ => none

/-- Python `needle in hay` on character lists: `true` iff `needle` occurs
contiguously in `hay`. -/
def occursIn (needle : List Char) : List Char → Bool
  | [] => List.isPrefixOf needle []
  | x :: xs => List.isPrefixOf needle (x :: xs) || occursIn needle xs

/-- Python `needle in hay` on strings. -/
def strOccurs (needle hay : String) : Bool :=
  occursIn needle.data hay.data

/-- The text before the first occurrence of `sep` in `l`; if `sep` does not
occur, all of `l`.  This embeds Python `l.split(sep)[0]` for a non-empty
separator. -/
def takeBefore (sep : List Char) : List Char → List Char
  | [] => []
  | x :: xs => if List.isPrefixOf sep (x :: xs) then [] else x :: takeBefore sep xs

/-- Python `s.strip()`: remove leading and trailing whitespace. -/
def pyStrip (s : String) : String :=
  String.mk (((s.data.dropWhile Char.isWhitespace).reverse.dropWhile Char.isWhitespace).reverse)

/-- Decimal digits of a natural number (most significant first), with fuel
to keep the recursion structural so the kernel can evaluate it. -/
def natCharsAux : Nat → Nat → List Char
  | 0, _ => []
  | fuel + 1, n =>
    if n < 10 then [Char.ofNat (48 + n)]
    else natCharsAux fuel (n / 10) ++ [Char.ofNat (48 + n % 10)]

/-- Decimal representation of a natural number. -/
def natChars (n : Nat) : List Char := natCharsAux (n + 1) n

/-- Python `"%d" % i` / `f"{i}"`: decimal representation of an integer. -/
def intStr (i : Int) : String :=
  if i < 0 then String.mk ('-' :: natChars i.natAbs) else String.mk (natChars i.toNat)

/-- Python `stdout.readlines()`: the lines of `s`, each keeping its
terminating newline; a final fragment with no newline is kept as is, and a
trailing newline does not produce an extra empty line. -/
def pyReadlines (s : String) : List String :=
  let parts := splitPred (fun c => c = '\n') s.data
  (parts.dropLast.map (fun p => String.mk (p ++ ['\n']))) ++
    (match parts.getLast? with
     | some last => if last = [] then [] else [String.mk last]
     | none => [])

/-! ## The job-status model

`JobStatus` and the finish-tag check live in `deepks/task/job/job_status.py`
and `deepks/task/job/batch.py`, which are not part of the sources here; they
are modelled from the spec.  The remote context (spec §6) is an external
collaborator: the parts of its state that `check_status` reads are collected
in `RemoteState`. -/

/-- Modelled from the spec: the closed `JobStatus` enumeration of
`job_status.py` (§3 of the spec; `completing` exists conceptually but is
folded away by the PBS backend). -/
inductive JobStatus
  | unsubmitted
  | waiting
  | running
  | finished
  | terminated
  | completing
  | unknown
  deriving DecidableEq, Repr

/-- Decidable equality of `Except` values, for evaluating the model at
concrete inputs. -/
instance {ε α : Type} [DecidableEq ε] [DecidableEq α] : DecidableEq (Except ε α) := fun a b =>
  match a, b with
  | .ok x, .ok y =>
    if h : x = y then .isTrue (by rw [h]) else .isFalse (by simp [h])
  | .error x, .error y =>
    if h : x = y then .isTrue (by rw [h]) else .isFalse (by simp [h])
  | .ok _, .error _ => .isFalse (by simp)
  | .error _, .ok _ => .isFalse (by simp)

/-- A Python exception raised by the PBS backend: either an explicit
`RuntimeError` with its message, or an `IndexError` from list indexing. -/
inductive PyError
  | runtimeError (msg : String)
  | indexError
  deriving DecidableEq, Repr

/-- The remote-context state observed by one `check_status` call: the
contents of the job-id file (`none` when the file does not exist), the
result of the finish-tag existence check, and the exit code / stdout /
stderr produced by the `qstat` status query. -/
structure RemoteState where
  job_id_file : Option String
  finish_tag : Bool
  qstat_ret : Int
  qstat_stdout : String
  qstat_stderr : String
  deriving DecidableEq, Repr

/-- `PBS._get_job_id` (pbs.py lines 132-136): the persisted job id if the
job-id file exists, otherwise the empty string. -/
def get_job_id (st : RemoteState) : String :=
  match st.job_id_file with
  | some s => s
  | none => ""

/-- The `RuntimeError` message raised when `qstat` fails for a reason other
than an unknown job id (pbs.py lines 149-150):
`"status command qstat fails to execute\nerror message:%s\nreturn code %d\n"`. -/
def qstatErrMsg (err : String) (ret : Int) : String :=
  "status command qstat fails to execute\nerror message:" ++ err ++
    "\nreturn code " ++ intStr ret ++ "\n"

/-- `PBS._check_status_inner` (pbs.py lines 138-167).  On nonzero exit code
the stderr is inspected for `"qstat: Unknown Job Id"`; on exit code zero the
second-to-last line of stdout is parsed and its second-to-last whitespace
token mapped to a status.  A failed negative index is an `IndexError`. -/
def check_status_inner (st : RemoteState) : Except PyError JobStatus :=
  if st.qstat_ret ≠ 0 then
    if strOccurs "qstat: Unknown Job Id" st.qstat_stderr then
      if st.finish_tag then .ok .finished else .ok .terminated
    else
      .error (.runtimeError (qstatErrMsg st.qstat_stderr st.qstat_ret))
  else
    match secondLast (pyLines st.qstat_stdout) with
    | none => .error .indexError
    | some status_line =>
      match secondLast (pySplitWs status_line) with
      | none => .error .indexError
      | some status_word =>
        if status_word = "Q" ∨ status_word = "H" then .ok .waiting
        else if status_word = "R" then .ok .running
        else if status_word = "C" ∨ status_word = "E" ∨ status_word = "K" then
          if st.finish_tag then .ok .finished else .ok .terminated
        else .ok .unknown

/-- `PBS.check_status` (pbs.py lines 12-24) instrumented with the list of
remote commands issued: an empty persisted job id returns `unsubmitted`
without any remote call, otherwise one `qstat` query is issued and its
result parsed (the `while True` loop returns on its first iteration). -/
def check_status_run (st : RemoteState) : Except PyError JobStatus × List String :=
  let job_id := get_job_id st
  if job_id = "" then (.ok .unsubmitted, [])
  else (check_status_inner st, ["qstat " ++ job_id])

/-- The status (or exception) computed by `PBS.check_status`. -/
def check_status (st : RemoteState) : Except PyError JobStatus :=
  (check_status_run st).1

/-! ## The submitter -/

/-- Modelled from the spec: the fixed submission-script filename
(`self.sub_script_name`, defined in `batch.py`, which is not among the
sources; only its fixedness matters). -/
def sub_script_name : String := "sub_script"

/-- Modelled from the spec: the fixed job-id filename
(`self.job_id_name`, defined in `batch.py`, which is not among the
sources; only its fixedness matters). -/
def job_id_name : String := "job_id"

/-- The remote-context state observed by one `exec_sub_script` call: the
exit code of the `qsub` submit command and its stdout. -/
structure SubmitState where
  sub_exit_code : Int
  sub_stdout : String
  deriving DecidableEq, Repr

/-- `PBS.exec_sub_script` (pbs.py lines 32-37), instrumented with the list
of `write_file` calls performed, in order.  The script is written first;
`block_checkcall` raises on a nonzero exit code; otherwise the first
whitespace token of the first stdout line (`stdout.readlines()[0].split()[0]`)
is persisted under the job-id filename.  A missing line or token is an
`IndexError`. -/
def exec_sub_script (st : SubmitState) (script_str : String) :
    List (String × String) × Option PyError :=
  let writes := [(sub_script_name, script_str)]
  if st.sub_exit_code ≠ 0 then
    (writes, some (.runtimeError "block_checkcall: command exited with nonzero code"))
  else
    match pyReadlines st.sub_stdout with
    | [] => (writes, some .indexError)
    | line0 :: _ =>
      match pySplitWs line0 with
      | [] => (writes, some .indexError)
      | tok :: _ => (writes ++ [(job_id_name, tok)], none)

/-! ## Resource-specification defaulting

`default_resources` treats the resource specification as a Python dict;
the dict is embedded as an insertion-ordered association list whose values
are a sum of the value shapes appearing in the default table. -/

/-- A resource value: the Python value shapes used by the default table and
the consumers (`int`, `str`, `list`, `bool`, `None`, and a `dict` for
`envs`). -/
inductive RVal
  | vInt (i : Int)
  | vStr (s : String)
  | vList (l : List String)
  | vBool (b : Bool)
  | vNone
  | vDict (d : List (String × String))
  deriving DecidableEq, Repr

/-- A resource dict: insertion-ordered key/value pairs. -/
abbrev ResDict := List (String × RVal)

/-- Python `d[key]` as a partial lookup: the first binding of `key`. -/
def dlookup : ResDict → String → Option RVal
  | [], _ => none
  | (k, v) :: rest, key => if k = key then some v else dlookup rest key

/-- `_default_item` (pbs.py lines 6-8): insert `(key, v)` at the end only
when `key` is not already bound. -/
def default_item (d : ResDict) (key : String) (v : RVal) : ResDict :=
  if (dlookup d key).isSome then d else d ++ [(key, v)]

/-- The default table of `PBS.default_resources` (pbs.py lines 47-65), in
source order. -/
def default_table : List (String × RVal) :=
  [("numb_node", .vInt 1), ("task_per_node", .vInt 1), ("cpus_per_task", .vInt 1),
   ("numb_gpu", .vInt 0), ("time_limit", .vStr "1:0:0"), ("mem_limit", .vInt (-1)),
   ("partition", .vStr ""), ("account", .vStr ""), ("qos", .vStr ""),
   ("constraint_list", .vList []), ("license_list", .vList []), ("exclude_list", .vList []),
   ("module_unload_list", .vList []), ("module_list", .vList []), ("source_list", .vList []),
   ("envs", .vNone), ("with_mpi", .vBool false), ("cuda_multi_tasks", .vBool false),
   ("allow_failure", .vBool false)]

/-- `PBS.default_resources` (pbs.py lines 39-66): `None` becomes the empty
dict, then the nineteen `_default_item` calls run in source order (the fold
over `default_table` unfolds to exactly that chain). -/
def default_resources (res_ : Option ResDict) : ResDict :=
  let res := res_.getD []
  default_table.foldl (fun d kv => default_item d kv.1 kv.2) res

/-! ## The script generator

The consumers (`sub_script_head`, `sub_script_cmd`) read a defaulted
specification through a fixed set of keys; the defaulted specification is
embedded as a record with one field per key, typed by the shape the
consumer applies to it. -/

/-- A defaulted resource specification, one field per key of the default
table. -/
structure Res where
  numb_node : Int
  task_per_node : Int
  cpus_per_task : Int
  numb_gpu : Int
  time_limit : String
  mem_limit : Int
  partition : String
  account : String
  qos : String
  constraint_list : List String
  license_list : List String
  exclude_list : List String
  module_unload_list : List String
  module_list : List String
  source_list : List String
  envs : Option (List (String × String))
  with_mpi : Bool
  cuda_multi_tasks : Bool
  allow_failure : Bool
  deriving Repr

/-- The specification produced by defaulting an empty input: every field
holds its default-table value. -/
def defaultRes : Res :=
  ⟨1, 1, 1, 0, "1:0:0", -1, "", "", "", [], [], [], [], [], [], none, false, false, false⟩

/-- `PBS.sub_script_head` (pbs.py lines 68-98) as the ordered list of string
pieces appended to `ret`, one list element per `+=` (loop iterations unroll
to one element each). -/
def sub_script_head_items (res : Res) : List String :=
  ["#!/bin/bash -l\n"] ++
  [if res.numb_gpu = 0 then
      "#PBS -l nodes=" ++ intStr res.numb_node ++ ":ppn=" ++ intStr res.task_per_node ++ "\n"
    else
      "#PBS -l nodes=" ++ intStr res.numb_node ++ ":ppn=" ++ intStr res.task_per_node ++
        ":gpus=" ++ intStr res.numb_gpu ++ "\n"] ++
  ["#PBS -l walltime=" ++ res.time_limit ++ "\n"] ++
  (if res.mem_limit > 0 then ["#PBS -l mem=" ++ intStr res.mem_limit ++ "G \n"] else []) ++
  ["#PBS -j oe\n"] ++
  (if res.partition.length > 0 then ["#PBS -q " ++ res.partition ++ " \n"] else []) ++
  ["\n"] ++
  res.module_unload_list.map (fun ii => "module unload " ++ ii ++ "\n") ++
  res.module_list.map (fun ii => "module load " ++ ii ++ "\n") ++
  ["\n"] ++
  res.source_list.map (fun ii => "source " ++ ii ++ "\n") ++
  ["\n"] ++
  (match res.envs with
   | none => []
   | some envs => envs.map (fun kv => "export " ++ kv.1 ++ "=" ++ kv.2 ++ "\n") ++ ["\n"]) ++
  ["cd  $PBS_O_WORKDIR \n"]

/-- The header text returned by `PBS.sub_script_head`. -/
def sub_script_head (res : Res) : String :=
  String.join (sub_script_head_items res)

/-- A step-level resource override for `PBS.sub_step_head`: the keys the
function reads, each optional (`in` / `.get` on a Python dict). -/
structure StepRes where
  numb_node : Option Int
  task_per_node : Option Int
  cpus_per_task : Option Int
  exclusive : Option Bool
  numb_gpu : Option Int
  deriving Repr

/-- The conditional flag segments appended to `params` by
`PBS.sub_step_head` (pbs.py lines 108-118), one list element per `+=`. -/
def sub_step_items (r : StepRes) : List String :=
  (match r.numb_node with
   | some n => [" -N " ++ intStr n ++ " "]
   | none => []) ++
  (match r.task_per_node with
   | some t => [" -n " ++ intStr (t * r.numb_node.getD 1) ++ " "]
   | none => []) ++
  (match r.cpus_per_task with
   | some c => [" -c " ++ intStr c ++ " "]
   | none => []) ++
  (if r.exclusive.getD false then [" --exclusive "] else []) ++
  (if r.numb_gpu.getD 0 > 0 then [" --gres=gpu:" ++ intStr (r.numb_gpu.getD 0) ++ "\n "] else [])

/-- `PBS.sub_step_head` (pbs.py lines 100-119): empty string when the
override is absent, otherwise `f"srun {params} "`. -/
def sub_step_head : Option StepRes → String
  | none => ""
  | some r => "srun " ++ String.join (sub_step_items r) ++ " "

/-- `PBS.sub_script_cmd` (pbs.py lines 121-130):
`_cmd = cmd.split('1>')[0].strip()`, then `srun`-prefixed iff `with_mpi`. -/
def sub_script_cmd (cmd arg : String) (res : Res) : String :=
  let c := pyStrip (String.mk (takeBefore "1>".data cmd.data))
  if res.with_mpi then "srun " ++ c ++ " " ++ arg
  else c ++ " " ++ arg

/-! ## Helper lemmas -/

/-- Two strings whose first `n` characters differ are different. -/
theorem str_ne_of_take (n : Nat) {s t : String} (h : s.data.take n ≠ t.data.take n) :
    s ≠ t :=
  fun he => h (by rw [he])

/-- Taking at most the length of the left operand of an append stays inside
the left operand. -/
theorem take_append_lit (s x : String) (n : Nat) (h : n ≤ s.data.length) :
    (s ++ x).data.take n = s.data.take n := by
  rw [String.data_append]
  exact List.take_append_of_le_length h

/-- Left cancellation for string append. -/
theorem str_cancel_left (a : String) {b c : String} (h : a ++ b = a ++ c) : b = c := by
  have hd := congrArg String.data h
  rw [String.data_append, String.data_append] at hd
  have : b.data = c.data := List.append_cancel_left hd
  cases b; cases c
  exact congrArg String.mk this

/-- A string is nonempty iff its length is positive. -/
theorem str_ne_empty_iff_length_pos (s : String) : s ≠ "" ↔ 0 < s.length := by
  cases s with
  | mk data =>
    constructor
    · intro h
      cases data with
      | nil => exact absurd rfl h
      | cons c cs => simp [String.length]
    · intro h he
      rw [he] at h
      simp [String.length] at h

/-! ## Claims about the status poller -/

/-- Claim C1: for a `qstat` query that returns exit code 0, `check_status` parses
the second-to-last newline-separated line of stdout, takes that line's
second-to-last whitespace token as the status code, and maps `Q`/`H` to
`waiting`, `R` to `running`, and `C`/`E`/`K` to `finished` when the finish
tag is present and `terminated` when it is absent. -/
theorem claim_C1 (st : RemoteState) (line w : String)
    (hjob : get_job_id st ≠ "")
    (hret : st.qstat_ret = 0)
    (hline : secondLast (pyLines st.qstat_stdout) = some line)
    (hword : secondLast (pySplitWs line) = some w) :
    ((w = "Q" ∨ w = "H") → check_status st = .ok .waiting) ∧
    (w = "R" → check_status st = .ok .running) ∧
    ((w = "C" ∨ w = "E" ∨ w = "K") →
      check_status st = .ok (if st.finish_tag then .finished else .terminated)) := by
  have h1 : check_status st =
      (if w = "Q" ∨ w = "H" then .ok .waiting
       else if w = "R" then .ok .running
       else if w = "C" ∨ w = "E" ∨ w = "K" then
         (if st.finish_tag then .ok .finished else .ok .terminated)
       else .ok .unknown) := by
    unfold check_status check_status_run check_status_inner
    rw [if_neg hjob, hret]
    rw [if_neg (by norm_num)]
    simp only [hline, hword]
  refine ⟨fun h => ?_, fun h => ?_, fun h => ?_⟩
  · rw [h1, if_pos h]
  · subst h
    rw [h1, if_neg (by decide), if_pos rfl]
  · rw [h1, if_neg (by rcases h with h | h | h <;> subst h <;> decide),
      if_neg (by rcases h with h | h | h <;> subst h <;> decide), if_pos h]
    split <;> rfl

/-- Concrete run of `claim_C1`: a realistic two-line `qstat` output whose
status column holds `R` yields `running`. -/
theorem claim_C1_witness :
    check_status ⟨some "42.srv", false, 0, "Job id S Queue\n42.srv me 0 R batch\n", ""⟩ =
      .ok .running :=
  (claim_C1 ⟨some "42.srv", false, 0, "Job id S Queue\n42.srv me 0 R batch\n", ""⟩
    "42.srv me 0 R batch" "R" (by decide) (by decide) (by decide) (by decide)).2.1 rfl

/-- Claim C2: for a `qstat` query that returns a nonzero exit code, a stderr
containing `"qstat: Unknown Job Id"` yields `finished` when the finish tag
is present and `terminated` when it is absent, without raising, while any
other stderr raises a `RuntimeError` whose message contains the stderr text
and the exit code, returning no status. -/
theorem claim_C2 (st : RemoteState)
    (hjob : get_job_id st ≠ "")
    (hret : st.qstat_ret ≠ 0) :
    (strOccurs "qstat: Unknown Job Id" st.qstat_stderr = true →
      check_status st = .ok (if st.finish_tag then .finished else .terminated)) ∧
    (strOccurs "qstat: Unknown Job Id" st.qstat_stderr = false →
      check_status st = .error (.runtimeError (qstatErrMsg st.qstat_stderr st.qstat_ret)) ∧
      (∃ pre suf : List Char,
        (qstatErrMsg st.qstat_stderr st.qstat_ret).data =
          pre ++ st.qstat_stderr.data ++ suf) ∧
      (∃ pre suf : List Char,
        (qstatErrMsg st.qstat_stderr st.qstat_ret).data =
          pre ++ (intStr st.qstat_ret).data ++ suf)) := by
  have h1 : check_status st = check_status_inner st := by
    unfold check_status check_status_run
    rw [if_neg hjob]
  constructor
  · intro h
    rw [h1]
    unfold check_status_inner
    rw [if_pos hret, if_pos h]
    split <;> rfl
  · intro h
    refine ⟨?_, ?_, ?_⟩
    · rw [h1]
      unfold check_status_inner
      rw [if_pos hret, if_neg (by rw [h]; exact Bool.false_ne_true)]
    · refine ⟨"status command qstat fails to execute\nerror message:".data,
        ("\nreturn code " ++ intStr st.qstat_ret ++ "\n").data, ?_⟩
      unfold qstatErrMsg
      simp only [String.data_append, List.append_assoc]
    · refine ⟨("status command qstat fails to execute\nerror message:" ++
        st.qstat_stderr ++ "\nreturn code ").data, "\n".data, ?_⟩
      unfold qstatErrMsg
      simp only [String.data_append, List.append_assoc]

/-- Concrete run of `claim_C2`: exit code 1 with unrelated stderr raises a
`RuntimeError` carrying the stderr text. -/
theorem claim_C2_witness :
    check_status ⟨some "1", false, 1, "", "connection refused"⟩ =
      .error (.runtimeError (qstatErrMsg "connection refused" 1)) :=
  ((claim_C2 ⟨some "1", false, 1, "", "connection refused"⟩
    (by decide) (by decide)).2 (by decide)).1

/-- Claim C3: when the persisted job identity is absent (no job-id file) or empty,
`check_status` returns `unsubmitted` and issues no remote command. -/
theorem claim_C3 (st : RemoteState)
    (h : st.job_id_file = none ∨ st.job_id_file = some "") :
    check_status_run st = (.ok .unsubmitted, []) := by
  have hjid : get_job_id st = "" := by
    rcases h with h | h <;> rw [get_job_id, h]
  unfold check_status_run
  rw [if_pos hjid]

/-- Concrete run of `claim_C3`: a missing job-id file yields `unsubmitted`
with no remote command issued. -/
theorem claim_C3_witness :
    check_status_run ⟨none, false, 0, "", ""⟩ = (.ok .unsubmitted, []) :=
  claim_C3 ⟨none, false, 0, "", ""⟩ (Or.inl rfl)

/-- Claim C4 counterexample: a `qstat` query that returns exit code 0 with
unparseable stdout (here: empty stdout, so there is no second-to-last line)
makes `check_status` raise an `IndexError` instead of returning `unknown`,
refuting the claim that an exit-code-0 query never raises. -/
theorem claim_C4_counterexample :
    (⟨some "1", false, 0, "", ""⟩ : RemoteState).qstat_ret = 0 ∧
    get_job_id ⟨some "1", false, 0, "", ""⟩ ≠ "" ∧
    check_status ⟨some "1", false, 0, "", ""⟩ = .error .indexError := by
  decide

/-- Claim C4 (amended): for a `qstat` query that returns exit code 0 and whose
stdout parses (its second-to-last line exists and holds at least two
whitespace tokens), a status token outside `Q`, `H`, `R`, `C`, `E`, `K`
yields `unknown` without raising. -/
theorem claim_C4 (st : RemoteState) (line w : String)
    (hjob : get_job_id st ≠ "")
    (hret : st.qstat_ret = 0)
    (hline : secondLast (pyLines st.qstat_stdout) = some line)
    (hword : secondLast (pySplitWs line) = some w)
    (hw : w ≠ "Q" ∧ w ≠ "H" ∧ w ≠ "R" ∧ w ≠ "C" ∧ w ≠ "E" ∧ w ≠ "K") :
    check_status st = .ok .unknown := by
  unfold check_status check_status_run check_status_inner
  rw [if_neg hjob, hret]
  rw [if_neg (by norm_num)]
  simp only [hline, hword]
  rw [if_neg (by rintro (h | h) <;> [exact hw.1 h; exact hw.2.1 h]),
    if_neg hw.2.2.1,
    if_neg (by rintro (h | h | h) <;>
      [exact hw.2.2.2.1 h; exact hw.2.2.2.2.1 h; exact hw.2.2.2.2.2 h])]

/-- Concrete run of `claim_C4`: the unrecognized status token `X` yields
`unknown` and no error. -/
theorem claim_C4_witness :
    check_status ⟨some "9", true, 0, "hdr\n9 job X queue\n", ""⟩ = .ok .unknown :=
  claim_C4 ⟨some "9", true, 0, "hdr\n9 job X queue\n", ""⟩ "9 job X queue" "X"
    (by decide) (by decide) (by decide) (by decide) (by decide)

/-! ## Claims about the submitter -/

/-- Claim C5 counterexample: a submit stdout whose first line is non-empty but
all whitespace (`" \n"`) makes `exec_sub_script` raise an `IndexError`
(`split()[0]` on a blank line) and persist no job id, refuting the claim
that every non-empty first line yields a persisted token. -/
theorem claim_C5_counterexample :
    pyReadlines " \n" = [" \n"] ∧ (" \n" : String) ≠ "" ∧
    exec_sub_script ⟨0, " \n"⟩ "script" =
      ([(sub_script_name, "script")], some .indexError) := by
  decide

/-- Claim C5 (amended): for a submit stdout whose first line contains at least
one whitespace-delimited token, the submitter persists exactly the first
token of the first line under the fixed job-id filename, after writing the
script text to the fixed script filename first; a nonzero submit exit code
raises with only the script write performed. -/
theorem claim_C5 (st : SubmitState) (script line0 tok : String)
    (rest toks : List String)
    (hlines : pyReadlines st.sub_stdout = line0 :: rest)
    (htoks : pySplitWs line0 = tok :: toks) :
    (st.sub_exit_code = 0 →
      exec_sub_script st script =
        ([(sub_script_name, script), (job_id_name, tok)], none)) ∧
    (st.sub_exit_code ≠ 0 →
      ∃ e, exec_sub_script st script =
        ([(sub_script_name, script)], some (.runtimeError e))) := by
  constructor
  · intro h
    unfold exec_sub_script
    rw [if_neg (by rw [h]; norm_num)]
    simp only [hlines, htoks]
    rfl
  · intro h
    exact ⟨"block_checkcall: command exited with nonzero code", by
      unfold exec_sub_script
      rw [if_pos h]⟩

/-- Concrete run of `claim_C5`: submit stdout `"12345.server\n"` persists
the job id `"12345.server"` after the script write. -/
theorem claim_C5_witness :
    exec_sub_script ⟨0, "12345.server\n"⟩ "script text" =
      ([(sub_script_name, "script text"), (job_id_name, "12345.server")], none) :=
  (claim_C5 ⟨0, "12345.server\n"⟩ "script text" "12345.server\n" "12345.server"
    [] [] (by decide) (by decide)).1 rfl

/-! ## Claims about resource defaulting -/

/-- Lookup in an appended dict: the left dict wins. -/
theorem dlookup_append (d e : ResDict) (k : String) :
    dlookup (d ++ e) k =
      match dlookup d k with
      | some v => some v
      | none => dlookup e k := by
  induction d with
  | nil => simp [dlookup]
  | cons kv rest ih =>
    by_cases hk : kv.1 = k
    · simp [dlookup, hk]
    · simp [dlookup, hk, ih]

/-- Effect of one `_default_item` call on an arbitrary lookup: existing
bindings win, and the key `k₀` gains `v₀` only when it was absent. -/
theorem dlookup_default_item (d : ResDict) (k₀ : String) (v₀ : RVal) (k : String) :
    dlookup (default_item d k₀ v₀) k =
      match dlookup d k with
      | some v => some v
      | none => if k₀ = k then some v₀ else none := by
  unfold default_item
  by_cases hp : (dlookup d k₀).isSome
  · rw [if_pos hp]
    cases h : dlookup d k
    · by_cases hk : k₀ = k
      · subst hk
        rw [h] at hp
        simp at hp
      · simp [h, hk]
    · simp [h]
  · rw [if_neg hp, dlookup_append]
    cases h : dlookup d k <;> simp [h, dlookup]

/-- Lookup after folding `_default_item` over a table: an existing binding
is preserved, and a missing key receives the table's first value for it. -/
theorem dlookup_foldl_defaults (tbl : List (String × RVal)) (d : ResDict) (k : String) :
    dlookup (tbl.foldl (fun d kv => default_item d kv.1 kv.2) d) k =
      match dlookup d k with
      | some v => some v
      | none => dlookup tbl k := by
  induction tbl generalizing d with
  | nil => cases h : dlookup d k <;> simp [h, dlookup]
  | cons kv rest ih =>
    rw [List.foldl_cons, ih, dlookup_default_item]
    cases h : dlookup d k
    · by_cases hk : kv.1 = k <;> simp [dlookup, hk]
    · simp

/-- One key of the default table: after defaulting, the key holds its
supplied value when one was supplied and the table default otherwise. -/
theorem default_resources_key (res_ : Option ResDict) (k : String) (dv : RVal)
    (hk : dlookup default_table k = some dv) :
    dlookup (default_resources res_) k =
      some ((dlookup (res_.getD []) k).getD dv) := by
  have hbase : dlookup (default_resources res_) k =
      match dlookup (res_.getD []) k with
      | some v => some v
      | none => dlookup default_table k :=
    dlookup_foldl_defaults default_table (res_.getD []) k
  rw [hbase]
  cases h : dlookup (res_.getD []) k <;> simp [hk]

/-- Claim C6: for every input mapping (including `None`), `default_resources`
returns a mapping in which every recognized key is present — holding its
documented default when it was missing and its supplied value unchanged
when it was supplied — and every supplied key (recognized or not) keeps its
value; the operation is a total function. -/
theorem claim_C6 (res_ : Option ResDict) :
    (∀ k v, dlookup (res_.getD []) k = some v →
      dlookup (default_resources res_) k = some v) ∧
    dlookup (default_resources res_) "numb_node" =
      some ((dlookup (res_.getD []) "numb_node").getD (.vInt 1)) ∧
    dlookup (default_resources res_) "task_per_node" =
      some ((dlookup (res_.getD []) "task_per_node").getD (.vInt 1)) ∧
    dlookup (default_resources res_) "cpus_per_task" =
      some ((dlookup (res_.getD []) "cpus_per_task").getD (.vInt 1)) ∧
    dlookup (default_resources res_) "numb_gpu" =
      some ((dlookup (res_.getD []) "numb_gpu").getD (.vInt 0)) ∧
    dlookup (default_resources res_) "time_limit" =
      some ((dlookup (res_.getD []) "time_limit").getD (.vStr "1:0:0")) ∧
    dlookup (default_resources res_) "mem_limit" =
      some ((dlookup (res_.getD []) "mem_limit").getD (.vInt (-1))) ∧
    dlookup (default_resources res_) "partition" =
      some ((dlookup (res_.getD []) "partition").getD (.vStr "")) ∧
    dlookup (default_resources res_) "account" =
      some ((dlookup (res_.getD []) "account").getD (.vStr "")) ∧
    dlookup (default_resources res_) "qos" =
      some ((dlookup (res_.getD []) "qos").getD (.vStr "")) ∧
    dlookup (default_resources res_) "constraint_list" =
      some ((dlookup (res_.getD []) "constraint_list").getD (.vList [])) ∧
    dlookup (default_resources res_) "license_list" =
      some ((dlookup (res_.getD []) "license_list").getD (.vList [])) ∧
    dlookup (default_resources res_) "exclude_list" =
      some ((dlookup (res_.getD []) "exclude_list").getD (.vList [])) ∧
    dlookup (default_resources res_) "module_unload_list" =
      some ((dlookup (res_.getD []) "module_unload_list").getD (.vList [])) ∧
    dlookup (default_resources res_) "module_list" =
      some ((dlookup (res_.getD []) "module_list").getD (.vList [])) ∧
    dlookup (default_resources res_) "source_list" =
      some ((dlookup (res_.getD []) "source_list").getD (.vList [])) ∧
    dlookup (default_resources res_) "envs" =
      some ((dlookup (res_.getD []) "envs").getD .vNone) ∧
    dlookup (default_resources res_) "with_mpi" =
      some ((dlookup (res_.getD []) "with_mpi").getD (.vBool false)) ∧
    dlookup (default_resources res_) "cuda_multi_tasks" =
      some ((dlookup (res_.getD []) "cuda_multi_tasks").getD (.vBool false)) ∧
    dlookup (default_resources res_) "allow_failure" =
      some ((dlookup (res_.getD []) "allow_failure").getD (.vBool false)) := by
  refine ⟨fun k v h => ?_, ?_, ?_, ?_, ?_, ?_, ?_, ?_, ?_, ?_, ?_, ?_, ?_, ?_,
    ?_, ?_, ?_, ?_, ?_, ?_⟩
  · have hbase : dlookup (default_resources res_) k =
        match dlookup (res_.getD []) k with
        | some v => some v
        | none => dlookup default_table k :=
      dlookup_foldl_defaults default_table (res_.getD []) k
    rw [hbase, h]
  all_goals exact default_resources_key res_ _ _ (by decide)

/-- Concrete run of `claim_C6`: a supplied `numb_node` is preserved and a
missing `mem_limit` receives its default. -/
theorem claim_C6_witness :
    dlookup (default_resources (some [("numb_node", RVal.vInt 7)])) "numb_node" =
      some (.vInt 7) ∧
    dlookup (default_resources (some [("numb_node", RVal.vInt 7)])) "mem_limit" =
      some (.vInt (-1)) := by
  have h := claim_C6 (some [("numb_node", RVal.vInt 7)])
  exact ⟨h.1 "numb_node" (.vInt 7) (by decide), by simpa using h.2.2.2.2.2.2.1⟩

/-! ## Claims about the script header -/

/-- Membership in a conditional singleton. -/
theorem mem_ite_nil {α : Type} (p : Prop) [Decidable p] (a : α) (l : List α) :
    (a ∈ if p then l else []) ↔ p ∧ a ∈ l := by
  split <;> simp [*]

/-- Equality with a conditional. -/
theorem eq_ite_iff' {α : Type} (x : α) (p : Prop) [Decidable p] (a b : α) :
    (x = if p then a else b) ↔ (p ∧ x = a) ∨ (¬p ∧ x = b) := by
  split <;> simp [*]

/-- Two appends with left operands that differ within their common first
`n` characters are different strings. -/
theorem str_ne_append (n : Nat) (a b x y : String) (ha : n ≤ a.data.length)
    (hb : n ≤ b.data.length) (h : a.data.take n ≠ b.data.take n) :
    a ++ x ≠ b ++ y := by
  apply str_ne_of_take n
  rw [take_append_lit a x n ha, take_append_lit b y n hb]
  exact h

/-- Every element of the header-item list has one of the fourteen source
shapes, guarded by the condition that emits it. -/
theorem sub_script_head_items_shape (res : Res) (x : String)
    (hx : x ∈ sub_script_head_items res) :
    x = "#!/bin/bash -l\n" ∨
    (res.numb_gpu = 0 ∧
      x = "#PBS -l nodes=" ++ intStr res.numb_node ++ ":ppn=" ++
        intStr res.task_per_node ++ "\n") ∨
    (¬res.numb_gpu = 0 ∧
      x = "#PBS -l nodes=" ++ intStr res.numb_node ++ ":ppn=" ++
        intStr res.task_per_node ++ ":gpus=" ++ intStr res.numb_gpu ++ "\n") ∨
    x = "#PBS -l walltime=" ++ res.time_limit ++ "\n" ∨
    (res.mem_limit > 0 ∧ x = "#PBS -l mem=" ++ intStr res.mem_limit ++ "G \n") ∨
    x = "#PBS -j oe\n" ∨
    (res.partition.length > 0 ∧ x = "#PBS -q " ++ res.partition ++ " \n") ∨
    x = "\n" ∨
    (∃ ii ∈ res.module_unload_list, "module unload " ++ ii ++ "\n" = x) ∨
    (∃ ii ∈ res.module_list, "module load " ++ ii ++ "\n" = x) ∨
    (∃ ii ∈ res.source_list, "source " ++ ii ++ "\n" = x) ∨
    (∃ e, res.envs = some e ∧
      ((∃ kv ∈ e, "export " ++ kv.1 ++ "=" ++ kv.2 ++ "\n" = x) ∨ x = "\n")) ∨
    x = "cd  $PBS_O_WORKDIR \n" := by
  rcases he : res.envs with _ | e <;>
    simp only [sub_script_head_items, he, List.mem_append, List.mem_singleton,
      List.mem_map, mem_ite_nil, eq_ite_iff', List.not_mem_nil, or_false,
      false_or] at hx <;>
    aesop

/-- A memory directive can appear among the header items only when the
memory limit is positive. -/
theorem mem_line_only_if (res : Res) (m : Int)
    (hm : ("#PBS -l mem=" ++ intStr m ++ "G \n") ∈ sub_script_head_items res) :
    res.mem_limit > 0 := by
  rcases sub_script_head_items_shape res _ hm with
    h | ⟨_, h⟩ | ⟨_, h⟩ | h | ⟨hc, _⟩ | h | ⟨_, h⟩ | h | ⟨ii, _, h⟩ | ⟨ii, _, h⟩ |
    ⟨ii, _, h⟩ | ⟨e, _, h⟩ | h
  · exact absurd h (by
      simp only [String.append_assoc]
      apply str_ne_of_take 2
      rw [take_append_lit _ _ 2 (by decide)]
      decide)
  · exact absurd h (by
      simp only [String.append_assoc]
      apply str_ne_append 9 _ _ _ _ (by decide) (by decide) (by decide))
  · exact absurd h (by
      simp only [String.append_assoc]
      apply str_ne_append 9 _ _ _ _ (by decide) (by decide) (by decide))
  · exact absurd h (by
      simp only [String.append_assoc]
      apply str_ne_append 9 _ _ _ _ (by decide) (by decide) (by decide))
  · exact hc
  · exact absurd h (by
      simp only [String.append_assoc]
      apply str_ne_of_take 7
      rw [take_append_lit _ _ 7 (by decide)]
      decide)
  · exact absurd h (by
      simp only [String.append_assoc]
      apply str_ne_append 7 _ _ _ _ (by decide) (by decide) (by decide))
  · exact absurd h (by
      simp only [String.append_assoc]
      apply str_ne_of_take 1
      rw [take_append_lit _ _ 1 (by decide)]
      decide)
  · exact absurd h.symm (by
      simp only [String.append_assoc]
      apply str_ne_append 1 _ _ _ _ (by decide) (by decide) (by decide))
  · exact absurd h.symm (by
      simp only [String.append_assoc]
      apply str_ne_append 1 _ _ _ _ (by decide) (by decide) (by decide))
  · exact absurd h.symm (by
      simp only [String.append_assoc]
      apply str_ne_append 1 _ _ _ _ (by decide) (by decide) (by decide))
  · rcases h with ⟨kv, _, h⟩ | h
    · exact absurd h.symm (by
        simp only [String.append_assoc]
        apply str_ne_append 1 _ _ _ _ (by decide) (by decide) (by decide))
    · exact absurd h (by
        simp only [String.append_assoc]
        apply str_ne_of_take 1
        rw [take_append_lit _ _ 1 (by decide)]
        decide)
  · exact absurd h (by
      simp only [String.append_assoc]
      apply str_ne_of_take 1
      rw [take_append_lit _ _ 1 (by decide)]
      decide)

/-- A queue directive can appear among the header items only when the
partition string is non-empty. -/
theorem queue_line_only_if (res : Res) (q : String)
    (hq : ("#PBS -q " ++ q ++ " \n") ∈ sub_script_head_items res) :
    res.partition.length > 0 := by
  rcases sub_script_head_items_shape res _ hq with
    h | ⟨_, h⟩ | ⟨_, h⟩ | h | ⟨_, h⟩ | h | ⟨hc, _⟩ | h | ⟨ii, _, h⟩ | ⟨ii, _, h⟩ |
    ⟨ii, _, h⟩ | ⟨e, _, h⟩ | h
  · exact absurd h (by
      simp only [String.append_assoc]
      apply str_ne_of_take 2
      rw [take_append_lit _ _ 2 (by decide)]
      decide)
  · exact absurd h (by
      simp only [String.append_assoc]
      apply str_ne_append 7 _ _ _ _ (by decide) (by decide) (by decide))
  · exact absurd h (by
      simp only [String.append_assoc]
      apply str_ne_append 7 _ _ _ _ (by decide) (by decide) (by decide))
  · exact absurd h (by
      simp only [String.append_assoc]
      apply str_ne_append 7 _ _ _ _ (by decide) (by decide) (by decide))
  · exact absurd h (by
      simp only [String.append_assoc]
      apply str_ne_append 7 _ _ _ _ (by decide) (by decide) (by decide))
  · exact absurd h (by
      simp only [String.append_assoc]
      apply str_ne_of_take 7
      rw [take_append_lit _ _ 7 (by decide)]
      decide)
  · exact hc
  · exact absurd h (by
      simp only [String.append_assoc]
      apply str_ne_of_take 1
      rw [take_append_lit _ _ 1 (by decide)]
      decide)
  · exact absurd h.symm (by
      simp only [String.append_assoc]
      apply str_ne_append 1 _ _ _ _ (by decide) (by decide) (by decide))
  · exact absurd h.symm (by
      simp only [String.append_assoc]
      apply str_ne_append 1 _ _ _ _ (by decide) (by decide) (by decide))
  · exact absurd h.symm (by
      simp only [String.append_assoc]
      apply str_ne_append 1 _ _ _ _ (by decide) (by decide) (by decide))
  · rcases h with ⟨kv, _, h⟩ | h
    · exact absurd h.symm (by
        simp only [String.append_assoc]
        apply str_ne_append 1 _ _ _ _ (by decide) (by decide) (by decide))
    · exact absurd h (by
        simp only [String.append_assoc]
        apply str_ne_of_take 1
        rw [take_append_lit _ _ 1 (by decide)]
        decide)
  · exact absurd h (by
      simp only [String.append_assoc]
      apply str_ne_of_take 1
      rw [take_append_lit _ _ 1 (by decide)]
      decide)

/-- A `gpus=`-carrying resource-request line can appear among the header
items only when the gpu count is nonzero. -/
theorem gpu_line_only_if (res : Res) (g : Int)
    (hg : ("#PBS -l nodes=" ++ intStr res.numb_node ++ ":ppn=" ++
      intStr res.task_per_node ++ ":gpus=" ++ intStr g ++ "\n") ∈
        sub_script_head_items res) :
    ¬res.numb_gpu = 0 := by
  rcases sub_script_head_items_shape res _ hg with
    h | ⟨_, h⟩ | ⟨hc, _⟩ | h | ⟨_, h⟩ | h | ⟨_, h⟩ | h | ⟨ii, _, h⟩ | ⟨ii, _, h⟩ |
    ⟨ii, _, h⟩ | ⟨e, _, h⟩ | h
  · exact absurd h (by
      simp only [String.append_assoc]
      apply str_ne_of_take 2
      rw [take_append_lit _ _ 2 (by decide)]
      decide)
  · simp only [String.append_assoc] at h
    have h1 := str_cancel_left _ h
    have h2 := str_cancel_left _ h1
    have h3 := str_cancel_left _ h2
    have h4 := str_cancel_left _ h3
    exact absurd h4 (by
      apply str_ne_of_take 1
      rw [take_append_lit _ _ 1 (by decide)]
      decide)
  · exact hc
  · exact absurd h (by
      simp only [String.append_assoc]
      apply str_ne_append 9 _ _ _ _ (by decide) (by decide) (by decide))
  · exact absurd h (by
      simp only [String.append_assoc]
      apply str_ne_append 9 _ _ _ _ (by decide) (by decide) (by decide))
  · exact absurd h (by
      simp only [String.append_assoc]
      apply str_ne_of_take 7
      rw [take_append_lit _ _ 7 (by decide)]
      decide)
  · exact absurd h (by
      simp only [String.append_assoc]
      apply str_ne_append 7 _ _ _ _ (by decide) (by decide) (by decide))
  · exact absurd h (by
      simp only [String.append_assoc]
      apply str_ne_of_take 1
      rw [take_append_lit _ _ 1 (by decide)]
      decide)
  · exact absurd h.symm (by
      simp only [String.append_assoc]
      apply str_ne_append 1 _ _ _ _ (by decide) (by decide) (by decide))
  · exact absurd h.symm (by
      simp only [String.append_assoc]
      apply str_ne_append 1 _ _ _ _ (by decide) (by decide) (by decide))
  · exact absurd h.symm (by
      simp only [String.append_assoc]
      apply str_ne_append 1 _ _ _ _ (by decide) (by decide) (by decide))
  · rcases h with ⟨kv, _, h⟩ | h
    · exact absurd h.symm (by
        simp only [String.append_assoc]
        apply str_ne_append 1 _ _ _ _ (by decide) (by decide) (by decide))
    · exact absurd h (by
        simp only [String.append_assoc]
        apply str_ne_of_take 1
        rw [take_append_lit _ _ 1 (by decide)]
        decide)
  · exact absurd h (by
      simp only [String.append_assoc]
      apply str_ne_of_take 1
      rw [take_append_lit _ _ 1 (by decide)]
      decide)

/-- Claim C7 counterexample: on the defaulted specification with `numb_gpu = -1`
(a supplied value preserved by `default_resources`), the resource-request
directive line includes `gpus=-1` although `-1 > 0` is false, refuting the
claim that the gpu count appears only if it is strictly positive (the code
tests `numb_gpu == 0`, not `> 0`). -/
theorem claim_C7_counterexample :
    ("#PBS -l nodes=" ++ intStr 1 ++ ":ppn=" ++ intStr 1 ++ ":gpus=" ++
      intStr (-1) ++ "\n") ∈ sub_script_head_items {defaultRes with numb_gpu := -1} ∧
    ¬((-1 : Int) > 0) := by
  decide

/-- Claim C7 (amended): the header contains the memory directive iff the memory
limit is strictly positive, contains the queue directive iff the partition
is non-empty, and its resource-request line includes the gpu count iff the
gpu count is nonzero (rather than only when strictly positive). -/
theorem claim_C7 (res : Res) :
    ((∃ m : Int, ("#PBS -l mem=" ++ intStr m ++ "G \n") ∈
        sub_script_head_items res) ↔ res.mem_limit > 0) ∧
    (res.mem_limit > 0 →
      ("#PBS -l mem=" ++ intStr res.mem_limit ++ "G \n") ∈
        sub_script_head_items res) ∧
    ((∃ q : String, ("#PBS -q " ++ q ++ " \n") ∈ sub_script_head_items res) ↔
      res.partition ≠ "") ∧
    (res.partition ≠ "" →
      ("#PBS -q " ++ res.partition ++ " \n") ∈ sub_script_head_items res) ∧
    ((∃ g : Int, ("#PBS -l nodes=" ++ intStr res.numb_node ++ ":ppn=" ++
        intStr res.task_per_node ++ ":gpus=" ++ intStr g ++ "\n") ∈
          sub_script_head_items res) ↔ res.numb_gpu ≠ 0) ∧
    (res.numb_gpu ≠ 0 →
      ("#PBS -l nodes=" ++ intStr res.numb_node ++ ":ppn=" ++
        intStr res.task_per_node ++ ":gpus=" ++ intStr res.numb_gpu ++ "\n") ∈
          sub_script_head_items res) := by
  have hmem : res.mem_limit > 0 →
      ("#PBS -l mem=" ++ intStr res.mem_limit ++ "G \n") ∈
        sub_script_head_items res := by
    intro h
    simp [sub_script_head_items, List.mem_append, List.mem_singleton, mem_ite_nil, h]
  have hq : res.partition ≠ "" →
      ("#PBS -q " ++ res.partition ++ " \n") ∈ sub_script_head_items res := by
    intro h
    have hlen := (str_ne_empty_iff_length_pos res.partition).mp h
    simp [sub_script_head_items, List.mem_append, List.mem_singleton, mem_ite_nil, hlen]
  have hg : res.numb_gpu ≠ 0 →
      ("#PBS -l nodes=" ++ intStr res.numb_node ++ ":ppn=" ++
        intStr res.task_per_node ++ ":gpus=" ++ intStr res.numb_gpu ++ "\n") ∈
          sub_script_head_items res := by
    intro h
    simp [sub_script_head_items, List.mem_append, List.mem_singleton, mem_ite_nil, h]
  refine ⟨⟨fun ⟨m, hm⟩ => mem_line_only_if res m hm, fun h => ⟨res.mem_limit, hmem h⟩⟩,
    hmem,
    ⟨fun ⟨q, hqm⟩ => (str_ne_empty_iff_length_pos res.partition).mpr
      (queue_line_only_if res q hqm), fun h => ⟨res.partition, hq h⟩⟩,
    hq,
    ⟨fun ⟨g, hgm⟩ => gpu_line_only_if res g hgm, fun h => ⟨res.numb_gpu, hg h⟩⟩,
    hg⟩

/-- Concrete run of `claim_C7`: with `mem_limit = 5` the memory directive
`#PBS -l mem=5G` appears among the header items. -/
theorem claim_C7_witness :
    ("#PBS -l mem=" ++ intStr 5 ++ "G \n") ∈
      sub_script_head_items {defaultRes with mem_limit := 5} :=
  (claim_C7 {defaultRes with mem_limit := 5}).2.1 (by decide)

/-! ## Claims about the command line -/

/-- Splitting at the first `"1>"`: when the prefix contains no `"1>"`, the
text before the first occurrence is exactly that prefix (the separator
cannot straddle the boundary because its two characters differ). -/
theorem takeBefore_redir (pre post : List Char) (h : occursIn ['1', '>'] pre = false) :
    takeBefore ['1', '>'] (pre ++ '1' :: '>' :: post) = pre := by
  induction pre with
  | nil => simp [takeBefore, List.isPrefixOf]
  | cons c cs ih =>
    rw [occursIn, Bool.or_eq_false_iff] at h
    obtain ⟨h1, h2⟩ := h
    have hpre : List.isPrefixOf ['1', '>'] (c :: (cs ++ '1' :: '>' :: post)) = false := by
      cases cs with
      | nil => simp [List.isPrefixOf]
      | cons d ds =>
        simp only [List.isPrefixOf, List.cons_append] at h1 ⊢
        simp at h1 ⊢
        exact h1
    simp only [List.cons_append, takeBefore, List.append_eq]
    rw [if_neg ?_]
    · rw [ih h2]
    · rw [hpre]
      exact Bool.false_ne_true

/-- Claim C8: for a raw command of the form `<pre>1><post>` whose part before the
redirection is redirection-free, `sub_script_cmd` strips everything from
the first `1>` onward (and strips surrounding whitespace), then produces
`srun <command> <args>` when `with_mpi` is set and exactly
`<command> <args>` otherwise. -/
theorem claim_C8 (pre post arg : String) (res : Res)
    (h : occursIn "1>".data pre.data = false) :
    sub_script_cmd (pre ++ "1>" ++ post) arg res =
      if res.with_mpi then "srun " ++ pyStrip pre ++ " " ++ arg
      else pyStrip pre ++ " " ++ arg := by
  have hdata : (pre ++ "1>" ++ post).data = pre.data ++ '1' :: '>' :: post.data := by
    simp only [String.data_append, List.append_assoc]
    rfl
  simp only [sub_script_cmd]
  rw [hdata, takeBefore_redir pre.data post.data h]

/-- Concrete run of `claim_C8`: the redirection suffix is stripped and with
`with_mpi` unset the result is exactly `<command> <args>`. -/
theorem claim_C8_witness :
    sub_script_cmd ("mycmd --flag " ++ "1>" ++ " out.log") "arg1" defaultRes =
      "mycmd --flag arg1" := by
  have h := claim_C8 "mycmd --flag " " out.log" "arg1" defaultRes (by decide)
  rw [h]
  decide

/-- Every element of the step-flag list has one of the five source shapes,
guarded by the condition that emits it. -/
theorem sub_step_items_shape (r : StepRes) (x : String)
    (hx : x ∈ sub_step_items r) :
    (∃ n, r.numb_node = some n ∧ x = " -N " ++ intStr n ++ " ") ∨
    (∃ t, r.task_per_node = some t ∧
      x = " -n " ++ intStr (t * r.numb_node.getD 1) ++ " ") ∨
    (∃ c, r.cpus_per_task = some c ∧ x = " -c " ++ intStr c ++ " ") ∨
    (r.exclusive.getD false = true ∧ x = " --exclusive ") ∨
    (r.numb_gpu.getD 0 > 0 ∧ x = " --gres=gpu:" ++ intStr (r.numb_gpu.getD 0) ++ "\n ") := by
  rcases hn : r.numb_node with _ | n <;>
  rcases ht : r.task_per_node with _ | t <;>
  rcases hc : r.cpus_per_task with _ | c <;>
    simp only [sub_step_items, hn, ht, hc, List.mem_append, List.mem_singleton,
      mem_ite_nil, List.not_mem_nil, or_false, false_or] at hx <;>
    aesop

/-- A `-N` flag can appear among the step flags only when the override
carries `numb_node`. -/
theorem stepN_only_if (r : StepRes) (n : Int)
    (h : (" -N " ++ intStr n ++ " ") ∈ sub_step_items r) : r.numb_node.isSome := by
  rcases sub_step_items_shape r _ h with
    ⟨m, hm, _⟩ | ⟨t, _, he⟩ | ⟨c, _, he⟩ | ⟨_, he⟩ | ⟨_, he⟩
  · rw [hm]; rfl
  · exact absurd he (by
      simp only [String.append_assoc]
      apply str_ne_append 3 _ _ _ _ (by decide) (by decide) (by decide))
  · exact absurd he (by
      simp only [String.append_assoc]
      apply str_ne_append 3 _ _ _ _ (by decide) (by decide) (by decide))
  · exact absurd he (by
      simp only [String.append_assoc]
      apply str_ne_of_take 3
      rw [take_append_lit _ _ 3 (by decide)]
      decide)
  · exact absurd he (by
      simp only [String.append_assoc]
      apply str_ne_append 3 _ _ _ _ (by decide) (by decide) (by decide))

/-- A `-n` flag can appear among the step flags only when the override
carries `task_per_node`. -/
theorem stepn_only_if (r : StepRes) (v : Int)
    (h : (" -n " ++ intStr v ++ " ") ∈ sub_step_items r) : r.task_per_node.isSome := by
  rcases sub_step_items_shape r _ h with
    ⟨m, _, he⟩ | ⟨t, ht, _⟩ | ⟨c, _, he⟩ | ⟨_, he⟩ | ⟨_, he⟩
  · exact absurd he (by
      simp only [String.append_assoc]
      apply str_ne_append 3 _ _ _ _ (by decide) (by decide) (by decide))
  · rw [ht]; rfl
  · exact absurd he (by
      simp only [String.append_assoc]
      apply str_ne_append 3 _ _ _ _ (by decide) (by decide) (by decide))
  · exact absurd he (by
      simp only [String.append_assoc]
      apply str_ne_of_take 3
      rw [take_append_lit _ _ 3 (by decide)]
      decide)
  · exact absurd he (by
      simp only [String.append_assoc]
      apply str_ne_append 3 _ _ _ _ (by decide) (by decide) (by decide))

/-- A `-c` flag can appear among the step flags only when the override
carries `cpus_per_task`. -/
theorem stepc_only_if (r : StepRes) (v : Int)
    (h : (" -c " ++ intStr v ++ " ") ∈ sub_step_items r) : r.cpus_per_task.isSome := by
  rcases sub_step_items_shape r _ h with
    ⟨m, _, he⟩ | ⟨t, _, he⟩ | ⟨c, hc, _⟩ | ⟨_, he⟩ | ⟨_, he⟩
  · exact absurd he (by
      simp only [String.append_assoc]
      apply str_ne_append 3 _ _ _ _ (by decide) (by decide) (by decide))
  · exact absurd he (by
      simp only [String.append_assoc]
      apply str_ne_append 3 _ _ _ _ (by decide) (by decide) (by decide))
  · rw [hc]; rfl
  · exact absurd he (by
      simp only [String.append_assoc]
      apply str_ne_of_take 3
      rw [take_append_lit _ _ 3 (by decide)]
      decide)
  · exact absurd he (by
      simp only [String.append_assoc]
      apply str_ne_append 3 _ _ _ _ (by decide) (by decide) (by decide))

/-- The `--exclusive` flag can appear among the step flags only when the
override's `exclusive` entry is truthy. -/
theorem stepx_only_if (r : StepRes)
    (h : (" --exclusive " : String) ∈ sub_step_items r) :
    r.exclusive.getD false = true := by
  rcases sub_step_items_shape r _ h with
    ⟨m, _, he⟩ | ⟨t, _, he⟩ | ⟨c, _, he⟩ | ⟨hx, _⟩ | ⟨_, he⟩
  · exact absurd he (by
      simp only [String.append_assoc]
      apply str_ne_of_take 3
      rw [take_append_lit " -N " _ 3 (by decide)]
      decide)
  · exact absurd he (by
      simp only [String.append_assoc]
      apply str_ne_of_take 3
      rw [take_append_lit " -n " _ 3 (by decide)]
      decide)
  · exact absurd he (by
      simp only [String.append_assoc]
      apply str_ne_of_take 3
      rw [take_append_lit " -c " _ 3 (by decide)]
      decide)
  · exact hx
  · exact absurd he (by
      simp only [String.append_assoc]
      apply str_ne_of_take 5
      rw [take_append_lit " --gres=gpu:" _ 5 (by decide)]
      decide)

/-- A `--gres` flag can appear among the step flags only when the
override's gpu count is strictly positive. -/
theorem stepg_only_if (r : StepRes) (v : Int)
    (h : (" --gres=gpu:" ++ intStr v ++ "\n ") ∈ sub_step_items r) :
    r.numb_gpu.getD 0 > 0 := by
  rcases sub_step_items_shape r _ h with
    ⟨m, _, he⟩ | ⟨t, _, he⟩ | ⟨c, _, he⟩ | ⟨_, he⟩ | ⟨hg, _⟩
  · exact absurd he (by
      simp only [String.append_assoc]
      apply str_ne_append 3 _ _ _ _ (by decide) (by decide) (by decide))
  · exact absurd he (by
      simp only [String.append_assoc]
      apply str_ne_append 3 _ _ _ _ (by decide) (by decide) (by decide))
  · exact absurd he (by
      simp only [String.append_assoc]
      apply str_ne_append 3 _ _ _ _ (by decide) (by decide) (by decide))
  · exact absurd he (by
      simp only [String.append_assoc]
      apply str_ne_of_take 5
      rw [take_append_lit _ _ 5 (by decide)]
      decide)
  · exact hg

/-- Claim C9: `sub_step_head` returns the empty string when the override is
absent; for a present override it returns the launcher prefix
`srun <flags> ` that the command is appended to, where the node-count flag,
the total-task-count flag (tasks-per-node times the node count, the latter
defaulted to 1), the cpus-per-task flag, the exclusive flag and the
gpu-binding flag each appear exactly when their key is present (or, for
`exclusive`/`numb_gpu`, truthy/positive). -/
theorem claim_C9 (r : StepRes) :
    sub_step_head none = "" ∧
    sub_step_head (some r) = "srun " ++ String.join (sub_step_items r) ++ " " ∧
    ((∃ n, (" -N " ++ intStr n ++ " ") ∈ sub_step_items r) ↔ r.numb_node.isSome) ∧
    (∀ n, r.numb_node = some n →
      (" -N " ++ intStr n ++ " ") ∈ sub_step_items r) ∧
    ((∃ v, (" -n " ++ intStr v ++ " ") ∈ sub_step_items r) ↔
      r.task_per_node.isSome) ∧
    (∀ t, r.task_per_node = some t →
      (" -n " ++ intStr (t * r.numb_node.getD 1) ++ " ") ∈ sub_step_items r) ∧
    ((∃ c, (" -c " ++ intStr c ++ " ") ∈ sub_step_items r) ↔
      r.cpus_per_task.isSome) ∧
    (∀ c, r.cpus_per_task = some c →
      (" -c " ++ intStr c ++ " ") ∈ sub_step_items r) ∧
    ((" --exclusive " : String) ∈ sub_step_items r ↔ r.exclusive.getD false = true) ∧
    ((∃ g, (" --gres=gpu:" ++ intStr g ++ "\n ") ∈ sub_step_items r) ↔
      r.numb_gpu.getD 0 > 0) := by
  have hN : ∀ n, r.numb_node = some n →
      (" -N " ++ intStr n ++ " ") ∈ sub_step_items r := by
    intro n hn
    simp [sub_step_items, hn, List.mem_append, mem_ite_nil]
  have hn : ∀ t, r.task_per_node = some t →
      (" -n " ++ intStr (t * r.numb_node.getD 1) ++ " ") ∈ sub_step_items r := by
    intro t ht
    simp [sub_step_items, ht, List.mem_append, mem_ite_nil]
  have hcp : ∀ c, r.cpus_per_task = some c →
      (" -c " ++ intStr c ++ " ") ∈ sub_step_items r := by
    intro c hc
    simp [sub_step_items, hc, List.mem_append, mem_ite_nil]
  have hxp : r.exclusive.getD false = true →
      (" --exclusive " : String) ∈ sub_step_items r := by
    intro hx
    simp [sub_step_items, hx, List.mem_append, mem_ite_nil]
  have hgp : r.numb_gpu.getD 0 > 0 →
      (" --gres=gpu:" ++ intStr (r.numb_gpu.getD 0) ++ "\n ") ∈ sub_step_items r := by
    intro hg
    simp [sub_step_items, hg, List.mem_append, mem_ite_nil]
  refine ⟨rfl, rfl,
    ⟨fun ⟨n, hm⟩ => stepN_only_if r n hm, fun hs => ?_⟩, hN,
    ⟨fun ⟨v, hm⟩ => stepn_only_if r v hm, fun hs => ?_⟩, hn,
    ⟨fun ⟨c, hm⟩ => stepc_only_if r c hm, fun hs => ?_⟩, hcp,
    ⟨fun hm => stepx_only_if r hm, hxp⟩,
    ⟨fun ⟨g, hm⟩ => stepg_only_if r g hm,
      fun hg => ⟨r.numb_gpu.getD 0, hgp hg⟩⟩⟩
  · obtain ⟨n, hn'⟩ := Option.isSome_iff_exists.mp hs
    exact ⟨n, hN n hn'⟩
  · obtain ⟨t, ht'⟩ := Option.isSome_iff_exists.mp hs
    exact ⟨t * r.numb_node.getD 1, hn t ht'⟩
  · obtain ⟨c, hc'⟩ := Option.isSome_iff_exists.mp hs
    exact ⟨c, hcp c hc'⟩

/-- Concrete run of `claim_C9`: with `numb_node = 2` present the `-N 2`
flag is among the step flags. -/
theorem claim_C9_witness :
    (" -N " ++ intStr 2 ++ " ") ∈ sub_step_items ⟨some 2, some 3, none, none, none⟩ :=
  (claim_C9 ⟨some 2, some 3, none, none, none⟩).2.2.2.1 2 rfl

/-- Claim C10: when the override carries `task_per_node` but not `numb_node`,
no node-count flag is emitted, yet the total-task-count flag is emitted
with the node count defaulted to 1, so its value is exactly the supplied
tasks-per-node. -/
theorem claim_C10 (r : StepRes) (t : Int)
    (hnn : r.numb_node = none) (ht : r.task_per_node = some t) :
    (∀ n, (" -N " ++ intStr n ++ " ") ∉ sub_step_items r) ∧
    (" -n " ++ intStr t ++ " ") ∈ sub_step_items r := by
  constructor
  · intro n hmem
    have hs := stepN_only_if r n hmem
    rw [hnn] at hs
    simp at hs
  · have h : (" -n " ++ intStr (t * r.numb_node.getD 1) ++ " ") ∈ sub_step_items r := by
      simp [sub_step_items, ht, List.mem_append, mem_ite_nil]
    rw [hnn] at h
    simpa using h

/-- Concrete run of `claim_C10`: `task_per_node = 5` with no `numb_node`
yields the flag `-n 5` and no `-N` flag. -/
theorem claim_C10_witness :
    (" -n " ++ intStr 5 ++ " ") ∈ sub_step_items ⟨none, some 5, none, none, none⟩ ∧
    (" -N " ++ intStr 1 ++ " ") ∉ sub_step_items ⟨none, some 5, none, none, none⟩ :=
  ⟨(claim_C10 ⟨none, some 5, none, none, none⟩ 5 rfl rfl).2,
   (claim_C10 ⟨none, some 5, none, none, none⟩ 5 rfl rfl).1 1⟩
